import Mathlib

/-!
Verification of the appointment scheduling and conflict-resolution engine of the
hairclub-api repository, shallowly embedded in Lean 4.

Conventions of the embedding:
* Times of day ("HH:MM" strings in the source) are represented by their value in
  minutes since midnight (a `Nat`); `padStart`-formatting of minute values below
  100 hours is injective, so string membership tests on formatted slot values
  coincide with `Nat` membership tests.
* Calendar dates (day-granularity `Date` values in the source) are represented by
  their day index since 1970-01-01.
* Database reads become explicit list parameters; a caught JavaScript exception
  becomes the `Except.error` branch of the function that raises it.
-/

namespace HairClub

/-- Appointment status enumeration (src/models/Appointment.ts). -/
inductive Status
  | pending
  | confirmed
  | completed
  | cancelled
  | needsRescheduling
deriving DecidableEq, Repr

/-- The appointment document (src/models/Appointment.ts).  `date` is a day index,
`time` minutes since midnight, `cancelledAt`/`updatedAt` absolute minutes. -/
structure Appointment where
  id : Nat
  user : Nat
  services : List Nat
  date : Nat
  time : Nat
  totalDuration : Nat
  status : Status
  notes : String
  cancellationReason : Option String
  cancelledAt : Option Nat
  reminderSent : Bool
  version : Nat
  updatedAt : Option Nat
deriving DecidableEq, Repr

/-- The three-disjunct overlap test used by `checkTimeConflict`
(appointment.controller.ts 68-72) and by
`appointmentService.verifyAppointmentAvailability` (appointment.service.ts 334-338). -/
def overlapTest (startMinutes endMinutes appStartMinutes appEndMinutes : Nat) : Bool :=
  (decide (startMinutes ≥ appStartMinutes) && decide (startMinutes < appEndMinutes)) ||
  (decide (endMinutes > appStartMinutes) && decide (endMinutes ≤ appEndMinutes)) ||
  (decide (startMinutes ≤ appStartMinutes) && decide (endMinutes ≥ appEndMinutes))

/-- The documents returned by the conflict queries: same calendar day, status not
`cancelled`, and (when an id is supplied for a reschedule) a different `_id`. -/
def conflictCandidates (apps : List Appointment) (date : Nat)
    (excludeId : Option Nat) : List Appointment :=
  apps.filter (fun a =>
    a.date == date && a.status != Status.cancelled &&
      (match excludeId with
       | some i => a.id != i
       | none => true))

/-- `checkTimeConflict` (appointment.controller.ts 30-78): true iff some
appointment of the day (other than the excluded one) passes the overlap test. -/
def checkTimeConflict (apps : List Appointment) (date time duration : Nat)
    (excludeId : Option Nat) : Bool :=
  let startMinutes := time
  let endMinutes := time + duration
  (conflictCandidates apps date excludeId).any (fun a =>
    overlapTest startMinutes endMinutes a.time (a.time + a.totalDuration))

/-- Result record of `verifyAppointmentAvailability`. -/
structure AvailabilityResult where
  available : Bool
  conflictExists : Bool
  message : Option String
deriving DecidableEq, Repr

/-- `appointmentService.verifyAppointmentAvailability` (appointment.service.ts
307-353): same day-window query and the same three-disjunct overlap test, with no
exclusion parameter. -/
def verifyAppointmentAvailability (apps : List Appointment) (date time duration : Nat) :
    AvailabilityResult :=
  let startMinutes := time
  let endMinutes := time + duration
  if (conflictCandidates apps date none).any (fun a =>
      overlapTest startMinutes endMinutes a.time (a.time + a.totalDuration)) then
    { available := false, conflictExists := true,
      message := some "El horario seleccionado ya está reservado" }
  else
    { available := true, conflictExists := false, message := none }

/-- A daily schedule (src/models/Schedule.ts).  The four half-day bounds are
optional strings in the source; a present, non-empty "HH:MM" value is represented
by `some` of its minute value, an absent or empty (falsy) value by `none`. -/
structure DailySchedule where
  closed : Bool
  openingAM : Option Nat
  closingAM : Option Nat
  openingPM : Option Nat
  closingPM : Option Nat
deriving DecidableEq, Repr

/-- The weekly regular hours: the mongoose schema stores exactly the seven
Spanish-named day fields (src/models/Schedule.ts 16-27). -/
structure RegularHours where
  lunes : DailySchedule
  martes : DailySchedule
  miercoles : DailySchedule
  jueves : DailySchedule
  viernes : DailySchedule
  sabado : DailySchedule
  domingo : DailySchedule
deriving DecidableEq, Repr

/-- A special-day override, keyed by calendar date (day index). -/
structure SpecialDay where
  date : Nat
  schedule : DailySchedule
deriving DecidableEq, Repr

/-- The schedule aggregate. -/
structure Schedule where
  regularHours : RegularHours
  specialDays : List SpecialDay
deriving DecidableEq, Repr

/-- JavaScript property access `schedule.regularHours[key]`: the stored document
has exactly the seven Spanish day-name keys, any other key yields `undefined`
(`none`). -/
def lookupRegular (r : RegularHours) (key : String) : Option DailySchedule :=
  if key = "lunes" then some r.lunes
  else if key = "martes" then some r.martes
  else if key = "miercoles" then some r.miercoles
  else if key = "jueves" then some r.jueves
  else if key = "viernes" then some r.viernes
  else if key = "sabado" then some r.sabado
  else if key = "domingo" then some r.domingo
  else none

/-- `format(currentDate, 'EEEE').toLowerCase()` (appointment.service.ts 83):
date-fns formats with its default en-US locale, so the result is the lowercase
English weekday name.  Day index 0 (1970-01-01) is a Thursday. -/
def englishDayName (d : Nat) : String :=
  match (d + 4) % 7 with
  | 0 => "sunday"
  | 1 => "monday"
  | 2 => "tuesday"
  | 3 => "wednesday"
  | 4 => "thursday"
  | 5 => "friday"
  | _ => "saturday"

/-- `normalizeDayName` (availability.controller.ts 9-23): the es-ES weekday name
of the date, lowercased and with accents stripped, which is exactly one of the
seven Spanish keys of `RegularHours`. -/
def normalizeDayName (d : Nat) : String :=
  match (d + 4) % 7 with
  | 0 => "domingo"
  | 1 => "lunes"
  | 2 => "martes"
  | 3 => "miercoles"
  | 4 => "jueves"
  | 5 => "viernes"
  | _ => "sabado"

/-- Half-day slot enumeration of `findNextAvailableSlot` (appointment.service.ts
98-119): starting at the opening, emit a slot every 30 minutes while the slot
start is strictly before the closing. -/
def genSlots30 (opening closing : Nat) : List Nat :=
  (List.range ((closing - opening + 29) / 30)).map (fun i => opening + 30 * i)

/-- The `availableTimes` array of a day in `findNextAvailableSlot`: AM slots then
PM slots, each half-day only when both of its bounds are present (truthy). -/
def availableTimes (ds : DailySchedule) : List Nat :=
  (match ds.openingAM, ds.closingAM with
   | some o, some c => genSlots30 o c
   | _, _ => []) ++
  (match ds.openingPM, ds.closingPM with
   | some o, some c => genSlots30 o c
   | _, _ => [])

/-- The 30-minute sub-slot footprint of an interval: the values
`start, start+30, …` strictly below `start + duration`
(appointment.service.ts 136-141 and 201-212). -/
def footprint (start duration : Nat) : List Nat :=
  (List.range ((duration + 29) / 30)).map (fun i => start + 30 * i)

/-- The `bookedTimes` set of a day (appointment.service.ts 122-142): the
footprints of every appointment of the day whose status is not `cancelled`. -/
def bookedTimes (apps : List Appointment) (date : Nat) : List Nat :=
  ((apps.filter (fun a => a.date == date && a.status != Status.cancelled)).map
    (fun a => footprint a.time a.totalDuration)).flatten

/-- The `fits` flag of `findNextAvailableSlot` (appointment.service.ts 171-192):
the candidate end is no later than the AM closing, or failing that no later than
the PM closing. The candidate start is not consulted. -/
def slotFits (ds : DailySchedule) (endMinutes : Nat) : Bool :=
  (match ds.openingAM, ds.closingAM with
   | some _, some c => decide (endMinutes ≤ c)
   | _, _ => false) ||
  (match ds.openingPM, ds.closingPM with
   | some _, some c => decide (endMinutes ≤ c)
   | _, _ => false)

/-- The `allSlotsAvailable` loop (appointment.service.ts 195-212): every
footprint sub-slot other than the start itself is absent from `bookedTimes`. -/
def restSlotsFree (booked : List Nat) (start duration : Nat) : Bool :=
  (footprint start duration).all (fun m => m == start || !(booked.contains m))

/-- One day body of the search loop after the day schedule is resolved
(appointment.service.ts 94-221): filter the generated slots (on the original day,
only slots strictly after the original time plus 30 minutes), then return the
first one that fits before a closing and whose remaining sub-slots are free. -/
def scanDay (ds : DailySchedule) (apps : List Appointment)
    (date origTime duration dayOffset : Nat) : Option (Nat × Nat) :=
  let booked := bookedTimes apps date
  let avail := availableTimes ds
  let valid := if dayOffset == 0 then
      avail.filter (fun t => decide (origTime + 30 < t) && !(booked.contains t))
    else
      avail.filter (fun t => !(booked.contains t))
  (valid.find? (fun t =>
      slotFits ds (t + duration) && restSlotsFree booked t duration)).map
    (fun t => (date, t))

/-- One iteration of the day loop (appointment.service.ts 64-222).
`Except.error ()` models the uncaught `TypeError` raised at
`daySchedule.closed` when the en-US weekday name misses the Spanish-keyed
`regularHours` document; `.ok none` models `continue` or an exhausted day. -/
def processDay (sched : Schedule) (apps : List Appointment)
    (origDate origTime duration dayOffset : Nat) :
    Except Unit (Option (Nat × Nat)) :=
  match sched.specialDays.find? (fun sd => sd.date == origDate + dayOffset) with
  | some sd =>
    if sd.schedule.closed then Except.ok none
    else Except.ok
      (scanDay sd.schedule apps (origDate + dayOffset) origTime duration dayOffset)
  | none =>
    match lookupRegular sched.regularHours
        (englishDayName (origDate + dayOffset)) with
    | none => Except.error ()
    | some ds =>
      if ds.closed then Except.ok none
      else Except.ok
        (scanDay ds apps (origDate + dayOffset) origTime duration dayOffset)

/-- The day loop `for (dayOffset = 0; dayOffset <= maxDays; dayOffset++)`: an
exception aborts the whole search, a found slot returns immediately. -/
def searchDays (sched : Schedule) (apps : List Appointment)
    (origDate origTime duration : Nat) :
    List Nat → Except Unit (Option (Nat × Nat))
  | [] => Except.ok none
  | o :: rest =>
    match processDay sched apps origDate origTime duration o with
    | Except.error e => Except.error e
    | Except.ok (some s) => Except.ok (some s)
    | Except.ok none => searchDays sched apps origDate origTime duration rest

/-- `appointmentService.findNextAvailableSlot` (appointment.service.ts 40-230):
the bounded day search; the surrounding `try`/`catch` turns any exception into
`null`, and an exhausted horizon also returns `null`. -/
def findNextAvailableSlot (sched : Schedule) (apps : List Appointment)
    (origDate origTime duration : Nat) (maxDays : Nat := 7) :
    Option (Nat × Nat) :=
  match searchDays sched apps origDate origTime duration
      (List.range (maxDays + 1)) with
  | Except.error _ => none
  | Except.ok r => r

/-- The daily schedule the search actually consults for day `d`: the first
matching special day if any, else the en-US-keyed `regularHours` access. -/
def usedDailySchedule (sched : Schedule) (d : Nat) : Option DailySchedule :=
  match sched.specialDays.find? (fun sd => sd.date == d) with
  | some sd => some sd.schedule
  | none => lookupRegular sched.regularHours (englishDayName d)

/-- Day index since 1970-01-01 of the Gregorian date `y-m-d` (month 1-12,
day 1-based).  Linear in `d`, so a day value past the end of the month rolls into
the following months exactly as JavaScript `Date` normalization does.  Valid for
dates from 1970 on (where the subtraction does not truncate). -/
def epochDay (y m d : Nat) : Nat :=
  let y' := if m ≤ 2 then y - 1 else y
  let era := y' / 400
  let yoe := y' % 400
  let mp := (m + 9) % 12
  let doy := (153 * mp + 2) / 5 + d - 1
  let doe := yoe * 365 + yoe / 4 - yoe / 100 + doy
  era * 146097 + doe - 719468

/-- A point in time as JavaScript `Date` components: `year`, 0-based `month`
(as `getMonth`), 1-based `day`, and minutes past midnight.  Sub-minute precision
is irrelevant to every compared value in the code. -/
structure Instant where
  year : Nat
  month : Nat
  day : Nat
  minute : Nat
deriving DecidableEq, Repr

/-- The timeline value of an instant, in minutes since the epoch; `Date`
comparisons in the source compare these values. -/
def Instant.lin (i : Instant) : Nat :=
  epochDay i.year (i.month + 1) i.day * 1440 + i.minute

/-- `today.setHours(0, 0, 0, 0)`: the midnight of the instant's calendar day. -/
def Instant.midnight (i : Instant) : Instant := { i with minute := 0 }

/-- `maxDate.setMonth(maxDate.getMonth() + k)`: the month field advances with
year rollover; a day-of-month beyond the new month's length rolls forward under
`Date` normalization, which the linear `epochDay` reproduces. -/
def Instant.addMonths (i : Instant) (k : Nat) : Instant :=
  { i with year := i.year + (i.month + k) / 12, month := (i.month + k) % 12 }

/-- `isDateInRange` (src/utils/dateUtils.ts 1-6) on timeline values:
`appointmentDate >= today && appointmentDate <= maxDate`, where `today` is the
current instant (`new Date()`, not midnight) and `maxDate` is two months later. -/
def isDateInRangeLin (now : Instant) (apptLin : Nat) (maxMonths : Nat := 2) : Bool :=
  decide (now.lin ≤ apptLin) && decide (apptLin ≤ (now.addMonths maxMonths).lin)

/-- `isDateInRange` applied to an instant-valued appointment date. -/
def isDateInRange (now apptDate : Instant) (maxMonths : Nat := 2) : Bool :=
  isDateInRangeLin now apptDate.lin maxMonths

/-- The date validation of `createAppointment` (appointment.controller.ts
196-212): reject when the date is before today's midnight, then reject when
`isDateInRange` (with `MAX_BOOKING_MONTHS = 2`) fails. -/
def createDateValidationPasses (now apptDate : Instant) : Bool :=
  decide ((Instant.midnight now).lin ≤ apptDate.lin) && isDateInRange now apptDate 2

/-- Half-day slot enumeration of `generateTimeSlots` (availability.controller.ts
93-104): emit a slot every 30 minutes while `current <= closing - 30`, i.e. while
the slot fits entirely before the closing. -/
def genSlotsBiz (opening closing : Nat) : List Nat :=
  (List.range ((closing - opening) / 30)).map (fun i => opening + 30 * i)

/-- `generateTimeSlots` (availability.controller.ts 83-115).  The
`totalDuration` parameter of the source is unused by its body and omitted. -/
def generateTimeSlots (ds : DailySchedule) : List Nat :=
  if ds.closed then []
  else
    (match ds.openingAM, ds.closingAM with
     | some o, some c => genSlotsBiz o c
     | _, _ => []) ++
    (match ds.openingPM, ds.closingPM with
     | some o, some c => genSlotsBiz o c
     | _, _ => [])

/-- Result record of `checkBusinessAvailability`. -/
structure BizAvailability where
  available : Bool
  message : Option String
deriving DecidableEq, Repr

/-- The fits/remaining-time computation of `checkBusinessAvailability`
(appointment.controller.ts 141-169): try the AM closing first, then the PM
closing; `remainingTime` keeps the last partial fit. -/
def bizFitsRem (ds : DailySchedule) (startM endM : Nat) : Bool × Nat :=
  let amStep : Bool × Nat :=
    match ds.openingAM, ds.closingAM with
    | some _, some c =>
      if startM < c then (if endM ≤ c then (true, 0) else (false, c - startM))
      else (false, 0)
    | _, _ => (false, 0)
  if amStep.1 then amStep
  else
    match ds.openingPM, ds.closingPM with
    | some _, some c =>
      if startM < c then (if endM ≤ c then (true, amStep.2) else (false, c - startM))
      else (false, amStep.2)
    | _, _ => (false, amStep.2)

/-- The per-day tail of `checkBusinessAvailability` once a non-closed day
schedule is resolved (appointment.controller.ts 126-178). -/
def bizCheckDay (ds : DailySchedule) (time duration : Nat) : BizAvailability :=
  if !((generateTimeSlots ds).contains time) then
    { available := false,
      message := some "El horario seleccionado está fuera de las horas de operación" }
  else
    let res := bizFitsRem ds time (time + duration)
    if res.1 then { available := true, message := none }
    else
      { available := false,
        message := some ("El servicio dura " ++ toString duration ++
          " minutos, pero solo quedan " ++ toString res.2 ++
          " minutos hasta el cierre") }

/-- `checkBusinessAvailability` (appointment.controller.ts 88-179).  Unlike the
slot-relocation search, the weekday lookup goes through `normalizeDayName`, whose
Spanish names match the stored keys. -/
def checkBusinessAvailability (sched : Schedule) (date time duration : Nat) :
    BizAvailability :=
  match sched.specialDays.find? (fun sd => sd.date == date) with
  | some sd =>
    if sd.schedule.closed then
      { available := false, message := some "El local está cerrado en esta fecha" }
    else bizCheckDay sd.schedule time duration
  | none =>
    match lookupRegular sched.regularHours (normalizeDayName date) with
    | none =>
      { available := false,
        message := some "El local está cerrado este día de la semana" }
    | some ds =>
      if ds.closed then
        { available := false,
          message := some "El local está cerrado este día de la semana" }
      else bizCheckDay ds time duration

/-- The authenticated principal supplied by the identity collaborator. -/
structure Principal where
  id : Nat
  role : String
deriving DecidableEq, Repr

/-- Outcome of `cancelAppointment` on an appointment found by its id. -/
inductive CancelResult
  | permissionDenied
  | ok (appointment : Appointment) (lateCancellation : Bool)
deriving DecidableEq, Repr

/-- `reason || 'Cancelado por el usuario'`: an absent or empty reason falls back
to the default. -/
def cancelReasonOrDefault (reason : String) : String :=
  if reason = "" then "Cancelado por el usuario" else reason

/-- `cancelAppointment` (appointment.controller.ts 390-465) on a found
appointment: the permission gate `user !== requester && role !== 'admin'`, then
the unconditional update of status, cancellation reason and timestamp; the save
increments the optimistic version and stamps `updatedAt` (Appointment.ts 88 and
114-120).  `now` is the current instant in absolute minutes. -/
def cancelAppointment (appt : Appointment) (requester : Principal)
    (reason : String) (now : Nat) : CancelResult :=
  if appt.user != requester.id && requester.role != "admin" then
    CancelResult.permissionDenied
  else
    let apptLin := appt.date * 1440 + appt.time
    CancelResult.ok
      { appt with
        status := Status.cancelled
        cancellationReason := some (cancelReasonOrDefault reason)
        cancelledAt := some now
        version := appt.version + 1
        updatedAt := some now }
      (decide (apptLin < now + 24 * 60))

/-- A service catalog document (only the fields the scheduler reads). -/
structure ServiceDoc where
  id : Nat
  duration : Nat
deriving DecidableEq, Repr

/-- The service re-resolution step of `rescheduleAppointment`
(appointment.controller.ts 520-536): keep the original services and duration
unless a service list is supplied, in which case every id must exist and the
duration is the sum of the found durations. -/
def resolveServices (catalog : List ServiceDoc) (appt : Appointment)
    (reqServices : Option (List Nat)) : Option (List Nat × Nat) :=
  match reqServices with
  | none => some (appt.services, appt.totalDuration)
  | some ids =>
    let found := catalog.filter (fun s => ids.contains s.id)
    if found.length != ids.length then none
    else some (ids, (found.map (fun s => s.duration)).sum)

/-- Outcome of `rescheduleAppointment`. -/
inductive RescheduleResult
  | permissionDenied
  | cancelledGuard
  | pastDate
  | outOfRange
  | unknownService
  | businessUnavailable (message : Option String)
  | conflict
  | ok (appointment : Appointment)
deriving DecidableEq, Repr

/-- `rescheduleAppointment` (appointment.controller.ts 470-667) up to the
successful in-place save (the duplicate-key recovery path is storage-race
behavior outside this state model): permission gate, the status guard that
rejects only `cancelled`, date validations against the current instant `now`,
service re-resolution, the business-hours check, and the conflict check
excluding the appointment's own id over the whole appointment store `allApps`. -/
def rescheduleAppointment (allApps : List Appointment) (catalog : List ServiceDoc)
    (sched : Schedule) (appt : Appointment) (requester : Principal)
    (reqDate reqTime : Option Nat) (reqServices : Option (List Nat))
    (now : Instant) : RescheduleResult :=
  if appt.user != requester.id && requester.role != "admin" then
    RescheduleResult.permissionDenied
  else if appt.status == Status.cancelled then
    RescheduleResult.cancelledGuard
  else
    let newDate := reqDate.getD appt.date
    let newTime := reqTime.getD appt.time
    if newDate * 1440 < (Instant.midnight now).lin then
      RescheduleResult.pastDate
    else if !(isDateInRangeLin now (newDate * 1440) 2) then
      RescheduleResult.outOfRange
    else
      match resolveServices catalog appt reqServices with
      | none => RescheduleResult.unknownService
      | some resolved =>
        let biz := checkBusinessAvailability sched newDate newTime resolved.2
        if !biz.available then RescheduleResult.businessUnavailable biz.message
        else if checkTimeConflict allApps newDate newTime resolved.2
            (some appt.id) then
          RescheduleResult.conflict
        else
          RescheduleResult.ok
            { appt with
              date := newDate
              time := newTime
              services := resolved.1
              totalDuration := resolved.2
              updatedAt := some now.lin
              version := appt.version + 1 }

/-- `notifyScheduleChange` (appointment.controller.ts 756-846): over the whole
appointment store, the affected set is every appointment of the change date whose
status is not `cancelled`; for each, the per-appointment task first requires a
user email (`hasEmail`), then awaits the notification dispatch (`deliveryOk`) and
only after it sets the status to `needsRescheduling` and appends to the notes —
so a missing email or a dispatch failure leaves that appointment unchanged. -/
def notifyScheduleChange (apps : List Appointment) (changeDate : Nat)
    (reason : String) (hasEmail deliveryOk : Nat → Bool) (now : Nat) :
    List Appointment :=
  apps.map (fun a =>
    if a.date == changeDate && a.status != Status.cancelled
        && hasEmail a.user && deliveryOk a.user then
      { a with
        status := Status.needsRescheduling
        notes := a.notes ++ "\nCancelado por el local: " ++
          (if reason = "" then "Cambio de horario" else reason)
        version := a.version + 1
        updatedAt := some now }
    else a)

/-- The key of the `date_time_status_unique` index (Appointment.ts 101-112):
the three indexed fields date, time and status. -/
def indexKey (a : Appointment) : Nat × Nat × Status := (a.date, a.time, a.status)

/-- Membership in the partial index:
`partialFilterExpression: { status: { $nin: ['cancelled'] } }`. -/
def inPartialIndex (a : Appointment) : Bool := a.status != Status.cancelled

/-- The storage-layer uniqueness constraint expressed as an invariant of the
appointment store: no two distinct documents covered by the partial index share
an index key. -/
def uniqueIndexSatisfied (apps : List Appointment) : Prop :=
  apps.Pairwise (fun a b =>
    inPartialIndex a = true → inPartialIndex b = true → indexKey a ≠ indexKey b)

/-- The weekly entry the spec intends for a date: the `regularHours` field named
by the (Spanish) weekday of the date. -/
def weekdayRegular (r : RegularHours) (d : Nat) : DailySchedule :=
  match (d + 4) % 7 with
  | 0 => r.domingo
  | 1 => r.lunes
  | 2 => r.martes
  | 3 => r.miercoles
  | 4 => r.jueves
  | 5 => r.viernes
  | _ => r.sabado

/-- Modelled from the spec (§4.1 `scheduleFor`): the daily schedule that applies
to a date — the special-day override when one exists, else the weekly entry for
the weekday.  Used to phrase hypotheses about days being closed or fully booked
independently of the code's en-US-keyed lookup. -/
def intendedDailySchedule (sched : Schedule) (d : Nat) : DailySchedule :=
  match sched.specialDays.find? (fun sd => sd.date == d) with
  | some sd => sd.schedule
  | none => weekdayRegular sched.regularHours d

/-- Day `d` is closed or fully booked for a request of the given duration: its
applying schedule is closed, or no generated slot both fits before a closing and
has a fully free sub-slot footprint. -/
def dayClosedOrFullyBooked (sched : Schedule) (apps : List Appointment)
    (duration d : Nat) : Prop :=
  (intendedDailySchedule sched d).closed = true ∨
    ∀ t ∈ availableTimes (intendedDailySchedule sched d),
      ¬(slotFits (intendedDailySchedule sched d) (t + duration) = true ∧
        (footprint t duration).all
          (fun m => !((bookedTimes apps d).contains m)) = true)

instance (sched : Schedule) (apps : List Appointment) (duration d : Nat) :
    Decidable (dayClosedOrFullyBooked sched apps duration d) := by
  unfold dayClosedOrFullyBooked
  infer_instance

/-- Worded from the claim: the interval `[t, t + dur)` lies entirely within a
single AM or PM interval of the daily schedule. -/
def liesInSingleHalfDay (ds : DailySchedule) (t dur : Nat) : Bool :=
  (match ds.openingAM, ds.closingAM with
   | some o, some c => decide (o ≤ t) && decide (t + dur ≤ c)
   | _, _ => false) ||
  (match ds.openingPM, ds.closingPM with
   | some o, some c => decide (o ≤ t) && decide (t + dur ≤ c)
   | _, _ => false)

/-- Worded from the claim: the interval `[t, t + dur)` intersects the interval
of no non-cancelled appointment of day `d`. -/
def intersectsNoAppointment (apps : List Appointment) (d t dur : Nat) : Bool :=
  apps.all (fun a => !(a.date == d && a.status != Status.cancelled &&
    decide (t < a.time + a.totalDuration) && decide (a.time < t + dur)))

/-! Concrete fixtures used by the counterexamples and witnesses below. -/

/-- A closed daily schedule with no half-day intervals. -/
def closedDay : DailySchedule := ⟨true, none, none, none, none⟩

/-- A week whose seven regular entries are all closed. -/
def allClosedWeek : RegularHours :=
  ⟨closedDay, closedDay, closedDay, closedDay, closedDay, closedDay, closedDay⟩

/-- A week where Monday (`lunes`) is open 09:00-13:00 and the rest is closed. -/
def mondayOpenWeek : RegularHours :=
  ⟨⟨false, some 540, some 780, none, none⟩, closedDay, closedDay, closedDay,
    closedDay, closedDay, closedDay⟩

/-- Day schedule open 09:00-13:00 and 16:00-20:00 (midday closure in between). -/
def splitDay : DailySchedule := ⟨false, some 540, some 780, some 960, some 1200⟩

/-- Schedule whose only special day is day 0 with the split schedule. -/
def splitDayZeroSchedule : Schedule := ⟨allClosedWeek, [⟨0, splitDay⟩]⟩

/-- Appointment 09:00-12:30 on day 0 (sub-slots 09:00 … 12:00). -/
def apptNineToTwelveThirty : Appointment :=
  ⟨1, 7, [3], 0, 540, 210, Status.pending, "", none, none, false, 0, none⟩

/-- Off-grid appointment 12:45-13:15 on day 0 (single sub-slot 12:45). -/
def apptTwelveFortyFive : Appointment :=
  ⟨2, 8, [3], 0, 765, 30, Status.confirmed, "", none, none, false, 0, none⟩

/-- 2024-06-10 as a day index (a Monday). -/
def juneTenth : Nat := epochDay 2024 6 10

/-- The existing appointment of the C4 scenario: 2024-06-10 at 10:00, 60 min. -/
def apptTenOClock : Appointment :=
  ⟨1, 7, [3], juneTenth, 600, 60, Status.pending, "", none, none, false, 0, none⟩

/-- Schedule giving 2024-06-10 hours 09:00-13:00 through the weekly entry. -/
def mondayRegularSchedule : Schedule := ⟨mondayOpenWeek, []⟩

/-- Schedule giving 2024-06-10 hours 09:00-13:00 through a special day. -/
def mondaySpecialSchedule : Schedule :=
  ⟨allClosedWeek, [⟨juneTenth, ⟨false, some 540, some 780, none, none⟩⟩]⟩

/-- Schedule closing days 0-6 by special days and opening day 7 (09:00-10:00). -/
def sevenClosedThenOpenSchedule : Schedule :=
  ⟨allClosedWeek,
    [⟨0, closedDay⟩, ⟨1, closedDay⟩, ⟨2, closedDay⟩, ⟨3, closedDay⟩,
      ⟨4, closedDay⟩, ⟨5, closedDay⟩, ⟨6, closedDay⟩,
      ⟨7, ⟨false, some 540, some 600, none, none⟩⟩]⟩

/-- A pending appointment used by the cancellation frame witness. -/
def apptPending : Appointment :=
  ⟨1, 7, [3], 19884, 600, 30, Status.pending, "notas", none, none, false, 2, none⟩

/-- `apptPending` after cancellation with reason "motivo" at minute 5. -/
def apptPendingCancelled : Appointment :=
  ⟨1, 7, [3], 19884, 600, 30, Status.cancelled, "notas", some "motivo", some 5,
    false, 3, some 5⟩

/-- A completed appointment on 2024-06-10 at 10:00. -/
def apptCompleted : Appointment :=
  ⟨1, 7, [3], 19884, 600, 30, Status.completed, "", none, none, false, 0, none⟩

/-- Schedule opening 2024-06-11 (day 19885) 09:00-13:00 via a special day. -/
def nextDayOpenSchedule : Schedule :=
  ⟨allClosedWeek, [⟨19885, ⟨false, some 540, some 780, none, none⟩⟩]⟩

/-- An already-cancelled appointment with a recorded reason and timestamp. -/
def apptAlreadyCancelled : Appointment :=
  ⟨4, 9, [2], 19900, 660, 45, Status.cancelled, "", some "viaje", some 11, false,
    1, some 11⟩

theorem overlapTest_iff (s d as ad : Nat) (hd : 0 < d) (had : 0 < ad) :
    overlapTest s (s + d) as (as + ad) = true ↔ (s < as + ad ∧ as < s + d) := by
  simp only [overlapTest, Bool.or_eq_true, Bool.and_eq_true, decide_eq_true_eq]
  omega

lemma mem_conflictCandidates {apps : List Appointment} {date : Nat}
    {excludeId : Option Nat} {a : Appointment} :
    a ∈ conflictCandidates apps date excludeId ↔
      a ∈ apps ∧ a.date = date ∧ a.status ≠ Status.cancelled ∧
        (∀ i, excludeId = some i → a.id ≠ i) := by
  cases excludeId <;>
    simp [conflictCandidates, List.mem_filter, and_assoc]

/-- Claim C2: the conflict check (`checkTimeConflict` and
`verifyAppointmentAvailability`) reports a conflict for a candidate
(date, time, duration > 0) iff some appointment of the same calendar date with
status other than cancelled — excluding, on reschedule, the appointment whose id
is passed — satisfies the half-open interval test `time < appEnd ∧ appStart <
time + duration`; in particular touching intervals are never conflicts, and
`verifyAppointmentAvailability` is the exclusion-free instance of the test. -/
theorem checkTimeConflict_iff_overlap (apps : List Appointment)
    (date time duration : Nat) (excludeId : Option Nat) (hd : 0 < duration)
    (hall : ∀ a ∈ apps, 0 < a.totalDuration) :
    (checkTimeConflict apps date time duration excludeId = true ↔
      ∃ a ∈ apps, a.date = date ∧ a.status ≠ Status.cancelled ∧
        (∀ i, excludeId = some i → a.id ≠ i) ∧
        time < a.time + a.totalDuration ∧ a.time < time + duration) ∧
    (verifyAppointmentAvailability apps date time duration).conflictExists =
      checkTimeConflict apps date time duration none := by
  constructor
  · simp only [checkTimeConflict, List.any_eq_true]
    constructor
    · rintro ⟨a, ha, hov⟩
      obtain ⟨hm, hdate, hst, hex⟩ := mem_conflictCandidates.1 ha
      exact ⟨a, hm, hdate, hst, hex,
        (overlapTest_iff time duration a.time a.totalDuration hd (hall a hm)).1 hov⟩
    · rintro ⟨a, hm, hdate, hst, hex, h1, h2⟩
      exact ⟨a, mem_conflictCandidates.2 ⟨hm, hdate, hst, hex⟩,
        (overlapTest_iff time duration a.time a.totalDuration hd
          (hall a hm)).2 ⟨h1, h2⟩⟩
  · simp only [verifyAppointmentAvailability, checkTimeConflict]
    split <;> simp_all

/-- Witness for C2: the conflict test evaluated at a concrete store with one
pending appointment 10:00-11:00 and the candidate 10:30 of duration 30. -/
theorem checkTimeConflict_iff_overlap_witness :
    (checkTimeConflict
        [⟨1, 7, [3], 5, 600, 60, Status.pending, "", none, none, false, 0, none⟩]
        5 630 30 none = true ↔
      ∃ a ∈ [(⟨1, 7, [3], 5, 600, 60, Status.pending, "", none, none, false, 0,
          none⟩ : Appointment)], a.date = 5 ∧ a.status ≠ Status.cancelled ∧
        (∀ i, (none : Option Nat) = some i → a.id ≠ i) ∧
        630 < a.time + a.totalDuration ∧ a.time < 630 + 30) ∧
    (verifyAppointmentAvailability
        [⟨1, 7, [3], 5, 600, 60, Status.pending, "", none, none, false, 0, none⟩]
        5 630 30).conflictExists =
      checkTimeConflict
        [⟨1, 7, [3], 5, 600, 60, Status.pending, "", none, none, false, 0, none⟩]
        5 630 30 none :=
  checkTimeConflict_iff_overlap _ 5 630 30 none (by decide) (by decide)

/-- Counterexample to claim C6: at the current moment 2024-06-10 10:00, a
request dated today at midnight passes the past-date check (second conjunct) yet
the overall date validation rejects it, because `isDateInRange` compares against
the current instant rather than today's midnight. -/
theorem createDateValidation_rejects_today_midnight :
    (Instant.midnight ⟨2024, 5, 10, 600⟩ = (⟨2024, 5, 10, 0⟩ : Instant)) ∧
    (Instant.midnight ⟨2024, 5, 10, 600⟩).lin ≤ (⟨2024, 5, 10, 0⟩ : Instant).lin ∧
    createDateValidationPasses ⟨2024, 5, 10, 600⟩ ⟨2024, 5, 10, 0⟩ = false := by
  decide

/-- Claim C6 (amended): the create/reschedule date validation passes iff the
requested date-time is not before the current moment and at most two calendar
months (under `setMonth` normalization) after the current moment; today at
midnight is therefore accepted only when the current moment is midnight. -/
theorem createDateValidation_iff_within_instant_window (now d : Instant) :
    createDateValidationPasses now d = true ↔
      (now.lin ≤ d.lin ∧ d.lin ≤ (now.addMonths 2).lin) := by
  have h : (Instant.midnight now).lin ≤ now.lin := by
    simp [Instant.lin, Instant.midnight]
  simp only [createDateValidationPasses, isDateInRange, isDateInRangeLin,
    Bool.and_eq_true, decide_eq_true_eq]
  omega

/-- Counterexample to claim C7: a non-owner with role `superadmin` receives the
permission error from `cancelAppointment`, because its gate only exempts role
`admin`. -/
theorem cancelAppointment_denies_superadmin :
    cancelAppointment
      ⟨1, 7, [3], 19884, 600, 30, Status.pending, "", none, none, false, 0, none⟩
      ⟨99, "superadmin"⟩ "motivo personal" 0 = CancelResult.permissionDenied := by
  decide

/-- Claim C7 (amended): `cancelAppointment` performs the cancellation iff the
requesting principal owns the appointment or has role `admin`; every other
principal — a non-owner `superadmin` included — gets the permission error, with
no update performed. -/
theorem cancelAppointment_permission_iff (appt : Appointment) (req : Principal)
    (reason : String) (now : Nat) :
    ((∃ a lc, cancelAppointment appt req reason now = CancelResult.ok a lc) ↔
      (appt.user = req.id ∨ req.role = "admin")) ∧
    (cancelAppointment appt req reason now = CancelResult.permissionDenied ↔
      ¬(appt.user = req.id ∨ req.role = "admin")) := by
  unfold cancelAppointment
  by_cases h : appt.user = req.id ∨ req.role = "admin"
  · have : (appt.user != req.id && req.role != "admin") = false := by
      rcases h with h | h <;> simp [h]
    simp [this, h]
  · push_neg at h
    have : (appt.user != req.id && req.role != "admin") = true := by
      simp [h.1, h.2]
    simp [this]
    tauto

/-- Claim C10: a successful `cancelAppointment` changes only the status, the
cancellation reason and timestamp, plus the automatically maintained `updatedAt`
stamp and version counter; user, services, date, time, total duration, notes and
reminder flag are unchanged. -/
theorem cancelAppointment_frame (appt : Appointment) (req : Principal)
    (reason : String) (now : Nat) (a : Appointment) (lc : Bool)
    (h : cancelAppointment appt req reason now = CancelResult.ok a lc) :
    a.user = appt.user ∧ a.services = appt.services ∧ a.date = appt.date ∧
    a.time = appt.time ∧ a.totalDuration = appt.totalDuration ∧
    a.notes = appt.notes ∧ a.reminderSent = appt.reminderSent ∧
    a.status = Status.cancelled ∧
    a.cancellationReason = some (cancelReasonOrDefault reason) ∧
    a.cancelledAt = some now ∧ a.updatedAt = some now ∧
    a.version = appt.version + 1 := by
  unfold cancelAppointment at h
  split at h
  · exact absurd h (by simp)
  · injection h with h1 h2
    subst h1
    simp

/-- Witness for C10: the frame property evaluated on a concrete owner-initiated
cancellation. -/
theorem cancelAppointment_frame_witness :
    apptPendingCancelled.user = apptPending.user ∧
    apptPendingCancelled.services = apptPending.services ∧
    apptPendingCancelled.date = apptPending.date ∧
    apptPendingCancelled.time = apptPending.time ∧
    apptPendingCancelled.totalDuration = apptPending.totalDuration ∧
    apptPendingCancelled.notes = apptPending.notes ∧
    apptPendingCancelled.reminderSent = apptPending.reminderSent ∧
    apptPendingCancelled.status = Status.cancelled ∧
    apptPendingCancelled.cancellationReason =
      some (cancelReasonOrDefault "motivo") ∧
    apptPendingCancelled.cancelledAt = some 5 ∧
    apptPendingCancelled.updatedAt = some 5 ∧
    apptPendingCancelled.version = apptPending.version + 1 :=
  cancelAppointment_frame apptPending ⟨7, "user"⟩ "motivo" 5 apptPendingCancelled
    false (by decide)

/-- Claim C1 (code bug): the `date_time_status_unique` index keys on
(date, time, status), so two distinct non-cancelled appointments carrying
different statuses may share the same (date, time) without violating the
constraint — here `pending` and `confirmed` both at day 19884 (2024-06-10)
minute 600 ("10:00") — contradicting the index's own stated guarantee. -/
theorem uniqueIndex_allows_equal_date_time_distinct_status :
    uniqueIndexSatisfied
      [⟨1, 7, [3], 19884, 600, 30, Status.pending, "", none, none, false, 0, none⟩,
       ⟨2, 8, [4], 19884, 600, 45, Status.confirmed, "", none, none, false, 0, none⟩] ∧
    inPartialIndex
      ⟨1, 7, [3], 19884, 600, 30, Status.pending, "", none, none, false, 0, none⟩ = true ∧
    inPartialIndex
      ⟨2, 8, [4], 19884, 600, 45, Status.confirmed, "", none, none, false, 0, none⟩ = true ∧
    (⟨1, 7, [3], 19884, 600, 30, Status.pending, "", none, none, false, 0, none⟩ :
        Appointment).date =
      (⟨2, 8, [4], 19884, 600, 45, Status.confirmed, "", none, none, false, 0, none⟩ :
        Appointment).date ∧
    (⟨1, 7, [3], 19884, 600, 30, Status.pending, "", none, none, false, 0, none⟩ :
        Appointment).time =
      (⟨2, 8, [4], 19884, 600, 45, Status.confirmed, "", none, none, false, 0, none⟩ :
        Appointment).time ∧
    (⟨1, 7, [3], 19884, 600, 30, Status.pending, "", none, none, false, 0, none⟩ :
        Appointment) ≠
      ⟨2, 8, [4], 19884, 600, 45, Status.confirmed, "", none, none, false, 0, none⟩ := by
  refine ⟨?_, by decide, by decide, by decide, by decide, by decide⟩
  unfold uniqueIndexSatisfied
  decide

/-- Counterexample to claim C8: `notifyScheduleChange` selects a `completed`
appointment of the date (the claim says only non-terminal ones) and sets it to
`needsRescheduling` (the claim says `cancelled`). -/
theorem notifyScheduleChange_selects_completed :
    notifyScheduleChange
      [⟨1, 7, [3], 100, 600, 30, Status.completed, "", none, none, false, 0, none⟩]
      100 "obra" (fun _ => true) (fun _ => true) 50 =
      [⟨1, 7, [3], 100, 600, 30, Status.needsRescheduling,
        "\nCancelado por el local: obra", none, none, false, 1, some 50⟩] := by
  decide

/-- Claim C8 (amended): `notifyScheduleChange` selects exactly the appointments
of the date whose status is not `cancelled` (completed ones included); each
selected appointment whose user has an email and whose notification dispatch
succeeds is set to `needsRescheduling` with a system note appended, its other
fields unchanged; any other appointment — in particular one whose dispatch
failed — is left exactly as it was, independently of the rest. -/
theorem notifyScheduleChange_pointwise (apps : List Appointment) (d : Nat)
    (reason : String) (hasEmail deliveryOk : Nat → Bool) (now : Nat) :
    List.Forall₂ (fun a b =>
      ((a.date = d ∧ a.status ≠ Status.cancelled ∧ hasEmail a.user = true ∧
          deliveryOk a.user = true) →
        (b.status = Status.needsRescheduling ∧ b.date = a.date ∧ b.time = a.time ∧
          b.user = a.user ∧ b.services = a.services ∧
          b.totalDuration = a.totalDuration ∧
          b.cancellationReason = a.cancellationReason ∧
          b.notes = a.notes ++ "\nCancelado por el local: " ++
            (if reason = "" then "Cambio de horario" else reason))) ∧
      (¬(a.date = d ∧ a.status ≠ Status.cancelled ∧ hasEmail a.user = true ∧
          deliveryOk a.user = true) → b = a))
      apps (notifyScheduleChange apps d reason hasEmail deliveryOk now) := by
  unfold notifyScheduleChange
  rw [List.forall₂_map_right_iff]
  rw [List.forall₂_same]
  intro a ha
  by_cases h : (a.date == d && a.status != Status.cancelled && hasEmail a.user &&
      deliveryOk a.user) = true
  · have hp : a.date = d ∧ a.status ≠ Status.cancelled ∧ hasEmail a.user = true ∧
        deliveryOk a.user = true := by
      simpa [Bool.and_eq_true, and_assoc] using h
    constructor
    · intro _
      simp [h]
    · intro hn
      exact absurd hp hn
  · have hp : ¬(a.date = d ∧ a.status ≠ Status.cancelled ∧ hasEmail a.user = true ∧
        deliveryOk a.user = true) := by
      intro hx
      exact h (by simp [Bool.and_eq_true, and_assoc, hx.1, hx.2.1, hx.2.2.1,
        hx.2.2.2])
    constructor
    · intro hx
      exact absurd hx hp
    · intro _
      simp [h]

/-- Counterexample to claim C9: a `completed` appointment is rescheduled
successfully — its date moves from 2024-06-10 to 2024-06-11 while the status
stays `completed` — because the status guard of `rescheduleAppointment` only
rejects `cancelled`. -/
theorem rescheduleAppointment_modifies_completed :
    rescheduleAppointment [apptCompleted] [] nextDayOpenSchedule apptCompleted
      ⟨7, "user"⟩ (some 19885) (some 600) none ⟨2024, 5, 10, 0⟩ =
      RescheduleResult.ok
        ⟨1, 7, [3], 19885, 600, 30, Status.completed, "", none, none, false, 1,
          some 28632960⟩ ∧
    apptCompleted.status = Status.completed ∧
    apptCompleted.date = 19884 := by
  decide

/-- Claim C9 (amended): only `cancelled` is terminal — for a cancelled
appointment and an authorized requester, `rescheduleAppointment` answers with
the cancelled-status rejection, while `cancelAppointment` applied again keeps
the status `cancelled` but overwrites the cancellation reason and timestamp
(and bumps version/updatedAt). -/
theorem cancelledGuard_and_recancel_overwrite
    (allApps : List Appointment) (catalog : List ServiceDoc) (sched : Schedule)
    (appt : Appointment) (requester : Principal) (reqDate reqTime : Option Nat)
    (reqServices : Option (List Nat)) (nowI : Instant) (reason : String)
    (now : Nat) (hc : appt.status = Status.cancelled)
    (hp : appt.user = requester.id ∨ requester.role = "admin") :
    rescheduleAppointment allApps catalog sched appt requester reqDate reqTime
        reqServices nowI = RescheduleResult.cancelledGuard ∧
    cancelAppointment appt requester reason now =
      CancelResult.ok
        { appt with
          status := Status.cancelled
          cancellationReason := some (cancelReasonOrDefault reason)
          cancelledAt := some now
          version := appt.version + 1
          updatedAt := some now }
        (decide (appt.date * 1440 + appt.time < now + 24 * 60)) := by
  have hcond : (appt.user != requester.id && requester.role != "admin") = false := by
    rcases hp with h | h <;> simp [h]
  constructor
  · unfold rescheduleAppointment
    simp [hcond, hc]
  · unfold cancelAppointment
    simp [hcond]

/-- Witness for C9: the amended behavior evaluated on a concrete
already-cancelled appointment and its owner. -/
theorem cancelledGuard_and_recancel_overwrite_witness :
    rescheduleAppointment [] [] ⟨allClosedWeek, []⟩ apptAlreadyCancelled
        ⟨9, "user"⟩ none none none ⟨2024, 5, 10, 0⟩ =
      RescheduleResult.cancelledGuard ∧
    cancelAppointment apptAlreadyCancelled ⟨9, "user"⟩ "otro motivo" 20 =
      CancelResult.ok
        { apptAlreadyCancelled with
          status := Status.cancelled
          cancellationReason := some (cancelReasonOrDefault "otro motivo")
          cancelledAt := some 20
          version := apptAlreadyCancelled.version + 1
          updatedAt := some 20 }
        (decide (apptAlreadyCancelled.date * 1440 + apptAlreadyCancelled.time <
          20 + 24 * 60)) :=
  cancelledGuard_and_recancel_overwrite [] [] ⟨allClosedWeek, []⟩
    apptAlreadyCancelled ⟨9, "user"⟩ none none none ⟨2024, 5, 10, 0⟩
    "otro motivo" 20 (by decide) (Or.inl (by decide))

lemma lookupRegular_englishDayName (r : RegularHours) (d : Nat) :
    lookupRegular r (englishDayName d) = none := by
  have h7 : (d + 4) % 7 < 7 := Nat.mod_lt _ (by norm_num)
  unfold englishDayName
  set n := (d + 4) % 7 with hn
  interval_cases n <;> rfl

lemma searchDays_ok_some {sched : Schedule} {apps : List Appointment}
    {origDate origTime duration : Nat} {l : List Nat} {s : Nat × Nat}
    (h : searchDays sched apps origDate origTime duration l = Except.ok (some s)) :
    ∃ o ∈ l, processDay sched apps origDate origTime duration o =
      Except.ok (some s) := by
  induction l with
  | nil => simp [searchDays] at h
  | cons o rest ih =>
    unfold searchDays at h
    rcases hp : processDay sched apps origDate origTime duration o with e | r
    · rw [hp] at h
      simp at h
    · rw [hp] at h
      rcases r with _ | s'
      · simp at h
        obtain ⟨o', ho', hpo⟩ := ih h
        exact ⟨o', List.mem_cons_of_mem _ ho', hpo⟩
      · simp at h
        subst h
        exact ⟨o, List.mem_cons_self _ _, hp⟩

lemma scanDay_some {ds : DailySchedule} {apps : List Appointment}
    {date origTime duration dayOffset d t : Nat}
    (h : scanDay ds apps date origTime duration dayOffset = some (d, t)) :
    d = date ∧ t ∈ availableTimes ds ∧
    (bookedTimes apps date).contains t = false ∧
    slotFits ds (t + duration) = true ∧
    restSlotsFree (bookedTimes apps date) t duration = true := by
  unfold scanDay at h
  rw [Option.map_eq_some'] at h
  obtain ⟨t', hfind, heq⟩ := h
  injection heq with hd ht
  subst hd
  subst ht
  have hpred := List.find?_some hfind
  have hmem := List.mem_of_find?_eq_some hfind
  rw [Bool.and_eq_true] at hpred
  refine ⟨rfl, ?_, ?_, hpred.1, hpred.2⟩
  · by_cases h0 : dayOffset == 0
    · rw [if_pos h0] at hmem
      exact (List.mem_filter.mp hmem).1
    · rw [if_neg h0] at hmem
      exact (List.mem_filter.mp hmem).1
  · by_cases h0 : dayOffset == 0
    · rw [if_pos h0] at hmem
      have := (List.mem_filter.mp hmem).2
      rw [Bool.and_eq_true] at this
      simpa using this.2
    · rw [if_neg h0] at hmem
      have := (List.mem_filter.mp hmem).2
      simpa using this

lemma fullFootprintFree {booked : List Nat} {t duration : Nat}
    (h1 : booked.contains t = false)
    (h2 : restSlotsFree booked t duration = true) :
    (footprint t duration).all (fun m => !(booked.contains m)) = true := by
  simp only [restSlotsFree, List.all_eq_true] at h2 ⊢
  intro m hm
  have h3 := h2 m hm
  simp only [Bool.or_eq_true, beq_iff_eq, Bool.not_eq_true'] at h3
  simp only [Bool.not_eq_true']
  rcases h3 with h | h
  · subst h
    exact h1
  · exact h

lemma processDay_ok_some {sched : Schedule} {apps : List Appointment}
    {origDate origTime duration o d t : Nat}
    (h : processDay sched apps origDate origTime duration o =
      Except.ok (some (d, t))) :
    ∃ ds, usedDailySchedule sched d = some ds ∧ ds.closed = false ∧
      d = origDate + o ∧
      scanDay ds apps (origDate + o) origTime duration o = some (d, t) := by
  unfold processDay at h
  split at h
  next sd hsp =>
    split at h
    next => simp at h
    next hcl =>
      simp only [Except.ok.injEq] at h
      have hd : d = origDate + o := (scanDay_some h).1
      refine ⟨sd.schedule, ?_, by simpa using hcl, hd, h⟩
      unfold usedDailySchedule
      rw [hd, hsp]
  next hsp =>
    split at h
    next => simp at h
    next ds hlr =>
      split at h
      next => simp at h
      next hcl =>
        simp only [Except.ok.injEq] at h
        have hd : d = origDate + o := (scanDay_some h).1
        refine ⟨ds, ?_, by simpa using hcl, hd, h⟩
        unfold usedDailySchedule
        rw [hd, hsp, hlr]

/-- Claim C3 (amended): when the Slot Relocation Search returns a slot (d, t),
t is one of the generated 30-minute slots of the (non-closed) daily schedule the
search consulted for d, t + duration is at most the AM closing or at most the PM
closing, and no 30-minute sub-slot stepped from t inside [t, t + duration) is in
the booked sub-slot footprint of the existing non-cancelled appointments of d.
Full containment in a single half-day interval and interval-disjointness from
off-grid appointments do not hold (see the counterexample). -/
theorem findNextAvailableSlot_sound (sched : Schedule) (apps : List Appointment)
    (origDate origTime duration maxDays d t : Nat)
    (h : findNextAvailableSlot sched apps origDate origTime duration maxDays =
      some (d, t)) :
    ∃ ds, usedDailySchedule sched d = some ds ∧ ds.closed = false ∧
      t ∈ availableTimes ds ∧ slotFits ds (t + duration) = true ∧
      (footprint t duration).all
        (fun m => !((bookedTimes apps d).contains m)) = true := by
  unfold findNextAvailableSlot at h
  rcases hs : searchDays sched apps origDate origTime duration
      (List.range (maxDays + 1)) with e | r
  · rw [hs] at h
    simp at h
  · rw [hs] at h
    rcases r with _ | s
    · simp at h
    · simp at h
      subst h
      obtain ⟨o, _, hpo⟩ := searchDays_ok_some hs
      obtain ⟨ds, hused, hcl, hd, hscan⟩ := processDay_ok_some hpo
      obtain ⟨_, hmem, hcont, hfits, hrest⟩ := scanDay_some hscan
      rw [← hd] at hcont hrest
      exact ⟨ds, hused, hcl, hmem, hfits, fullFootprintFree hcont hrest⟩

lemma scanDay_none_of_fullyBooked {ds : DailySchedule} {apps : List Appointment}
    {date origTime duration dayOffset : Nat}
    (h : ∀ t ∈ availableTimes ds,
      ¬(slotFits ds (t + duration) = true ∧
        (footprint t duration).all
          (fun m => !((bookedTimes apps date).contains m)) = true)) :
    scanDay ds apps date origTime duration dayOffset = none := by
  rcases hscan : scanDay ds apps date origTime duration dayOffset with _ | s
  · rfl
  · rcases s with ⟨d, t⟩
    obtain ⟨_, hmem, hcont, hfits, hrest⟩ := scanDay_some hscan
    exact absurd ⟨hfits, fullFootprintFree hcont hrest⟩ (h t hmem)

lemma processDay_not_some_of_unavailable {sched : Schedule}
    {apps : List Appointment} {origDate origTime duration o : Nat}
    (h : dayClosedOrFullyBooked sched apps duration (origDate + o)) :
    processDay sched apps origDate origTime duration o = Except.ok none ∨
    processDay sched apps origDate origTime duration o = Except.error () := by
  rcases hsp : sched.specialDays.find? (fun sd => sd.date == origDate + o)
      with _ | sd
  · right
    unfold processDay
    rw [hsp, lookupRegular_englishDayName]
  · left
    unfold processDay
    rw [hsp]
    show (if sd.schedule.closed = true then Except.ok none
      else Except.ok (scanDay sd.schedule apps (origDate + o) origTime duration o)) =
      Except.ok none
    by_cases hcl : sd.schedule.closed = true
    · rw [if_pos hcl]
    · rw [if_neg hcl]
      unfold dayClosedOrFullyBooked intendedDailySchedule at h
      rw [hsp] at h
      rcases h with h | h
      · exact absurd h hcl
      · rw [scanDay_none_of_fullyBooked h]

lemma searchDays_none_of_all_unavailable {sched : Schedule}
    {apps : List Appointment} {origDate origTime duration : Nat} {l : List Nat}
    (h : ∀ o ∈ l, dayClosedOrFullyBooked sched apps duration (origDate + o)) :
    searchDays sched apps origDate origTime duration l = Except.ok none ∨
    searchDays sched apps origDate origTime duration l = Except.error () := by
  induction l with
  | nil => left; rfl
  | cons o rest ih =>
    unfold searchDays
    rcases processDay_not_some_of_unavailable
        (h o (List.mem_cons_self _ _)) with hp | hp
    · rw [hp]
      exact ih (fun o' ho' => h o' (List.mem_cons_of_mem _ ho'))
    · rw [hp]
      right
      rfl

/-- Claim C5 (amended): the day loop runs over offsets 0 through `maxDays`
(maxDays + 1 = 8 days for the default 7); when every one of those days is closed
or fully booked, `findNextAvailableSlot` terminates and returns `null` — the
model is a total function, so no exception escapes to the caller. -/
theorem findNextAvailableSlot_exhausted_returns_none (sched : Schedule)
    (apps : List Appointment) (origDate origTime duration maxDays : Nat)
    (h : ∀ k, k ≤ maxDays →
      dayClosedOrFullyBooked sched apps duration (origDate + k)) :
    findNextAvailableSlot sched apps origDate origTime duration maxDays = none := by
  unfold findNextAvailableSlot
  rcases searchDays_none_of_all_unavailable
      (l := List.range (maxDays + 1))
      (fun o ho => h o (Nat.lt_succ_iff.mp (List.mem_range.mp ho))) with hs | hs <;>
    rw [hs]

/-- Counterexample to claim C3: with the split day 09:00-13:00 / 16:00-20:00,
an appointment 09:00-12:30 and an off-grid appointment 12:45-13:15, the search
relocates the rejected 09:00/60-min candidate to 12:30 — an interval
[12:30, 13:30) that lies in no single half-day interval and that intersects the
12:45 appointment. -/
theorem findNextAvailableSlot_crosses_break_and_overlap :
    findNextAvailableSlot splitDayZeroSchedule
        [apptNineToTwelveThirty, apptTwelveFortyFive] 0 540 60 7 = some (0, 750) ∧
    usedDailySchedule splitDayZeroSchedule 0 = some splitDay ∧
    liesInSingleHalfDay splitDay 750 60 = false ∧
    intersectsNoAppointment [apptNineToTwelveThirty, apptTwelveFortyFive]
      0 750 60 = false := by
  decide

/-- Witness for C3: the soundness conclusions evaluated at the special-day
scenario of 2024-06-10, where the search returns slot 660 ("11:00"). -/
theorem findNextAvailableSlot_sound_witness :
    ∃ ds, usedDailySchedule mondaySpecialSchedule juneTenth = some ds ∧
      ds.closed = false ∧ 660 ∈ availableTimes ds ∧
      slotFits ds (660 + 30) = true ∧
      (footprint 660 30).all
        (fun m =>
          !((bookedTimes [apptTenOClock] juneTenth).contains m)) = true :=
  findNextAvailableSlot_sound mondaySpecialSchedule [apptTenOClock] juneTenth
    600 30 7 juneTenth 660 (by decide)

/-- Counterexample to claim C4: when the 09:00-13:00 hours of 2024-06-10 (a
Monday) come from the weekly `regularHours`, the search returns `null` instead
of "11:00": its en-US weekday key "monday" misses the Spanish-keyed weekly map,
the `undefined` access throws, and the catch yields `null`. -/
theorem findNextAvailableSlot_regularHours_returns_none :
    weekdayRegular mondayRegularSchedule.regularHours juneTenth =
      ⟨false, some 540, some 780, none, none⟩ ∧
    englishDayName juneTenth = "monday" ∧
    findNextAvailableSlot mondayRegularSchedule [apptTenOClock] juneTenth
      600 30 7 = none := by
  decide

/-- Claim C4 (amended): in the C4 scenario — one 10:00/60-min non-cancelled
appointment on 2024-06-10, 09:00-13:00 hours applying to that date through a
special-day entry, a conflicting 10:00/30-min request, maxDays = 7 — the search
returns the same date with minute 660, i.e. "11:00". -/
theorem findNextAvailableSlot_specialDay_returns_eleven :
    findNextAvailableSlot mondaySpecialSchedule [apptTenOClock] juneTenth
      600 30 7 = some (juneTenth, 660) ∧ 660 = 11 * 60 := by
  decide

/-- Counterexample to claim C5: all seven days at offsets 0..6 are closed
(first conjunct), yet the search does not report failure — the loop condition
`dayOffset <= maxDays` examines an eighth day (offset 7) and returns a slot
there. -/
theorem findNextAvailableSlot_examines_eighth_day :
    ((List.range 7).all (fun k =>
      match sevenClosedThenOpenSchedule.specialDays.find?
          (fun sd => sd.date == k) with
      | some sd => sd.schedule.closed
      | none => false)) = true ∧
    findNextAvailableSlot sevenClosedThenOpenSchedule [] 0 540 30 7 =
      some (7, 540) := by
  decide

/-- Witness for C5: the exhaustion theorem applied to a schedule whose weekly
entries are all closed. -/
theorem findNextAvailableSlot_exhausted_witness :
    (∀ k, k ≤ 7 →
      dayClosedOrFullyBooked ⟨allClosedWeek, []⟩ [] 30 (0 + k)) ∧
    findNextAvailableSlot ⟨allClosedWeek, []⟩ [] 0 540 30 7 = none :=
  ⟨by decide,
    findNextAvailableSlot_exhausted_returns_none ⟨allClosedWeek, []⟩ [] 0 540 30 7
      (by decide)⟩

end HairClub
